import Mathlib

/-!
Verification of the Grapic face-match backend (src/backend/app).

The definitions below are a shallow embedding of the Python source:
* `Grapic.find_matches`, `Grapic.detect_and_encode` embed
  `app/services/face_service.py`;
* `Grapic.process_photo`, `Grapic.uploadBatch`, `Grapic.update_progress` embed
  the ingestion pipeline (`app/services/worker.py`, `app/routes/progress.py`,
  `app/routes/photos.py`);
* `Grapic.auto_retry_failed_photos` embeds `app/tasks_auto_retry.py`.

Python floats are modelled as real numbers (exact arithmetic); numpy vectors
as `List ℝ`; photo ids as `String`; Python ints as `Int`/`Nat`; a Python call
that may raise is modelled by an `Except`-valued input describing the outcome
of the external call.
-/

namespace Grapic

/-- `np.dot` on two vectors (numpy truncates nothing here: embeddings share
dimension `D`; `zipWith` agrees with numpy on equal-length vectors). -/
def dot (a b : List ℝ) : ℝ := (List.zipWith (fun x y => x * y) a b).sum

/-- `np.linalg.norm`: the L2 norm, `sqrt (v · v)`. -/
noncomputable def norm (v : List ℝ) : ℝ := Real.sqrt (dot v v)

/-- The cosine similarity computed at face_service.py:92:
`np.dot(selfie_vec, stored_vec) / (selfie_norm * stored_norm)`. -/
noncomputable def cosineSim (a b : List ℝ) : ℝ := dot a b / (norm a * norm b)

/-- Python `round(x, 4)` (face_service.py:97): round to 4 decimal places.
Modelled as round-to-nearest; Python breaks exact ties to even, which no
claim here depends on. -/
noncomputable def round4 (x : ℝ) : ℝ := (round (x * 10000) : ℤ) / 10000

/-- One row of `stored_embeddings`: a dict with keys `embedding`, `photo_id`. -/
structure StoredEmbedding where
  photo_id : String
  embedding : List ℝ

/-- One element of the list returned by `find_matches`:
`{"photo_id": ..., "similarity": round(cosine_sim, 4)}`. -/
structure MatchResult where
  photo_id : String
  similarity : ℝ

/-- The comparison used by `matches.sort(key=lambda x: x["similarity"],
reverse=True)` (face_service.py:102): `a` may precede `b` iff
`b.similarity ≤ a.similarity`. -/
def simGE (a b : MatchResult) : Prop := b.similarity ≤ a.similarity

noncomputable instance : DecidableRel simGE :=
  fun a b => Real.decidableLE b.similarity a.similarity

instance : IsTotal MatchResult simGE :=
  ⟨fun a b => le_total b.similarity a.similarity⟩

instance : IsTrans MatchResult simGE :=
  ⟨fun _ _ _ h1 h2 => le_trans h2 h1⟩

/-- The accumulation loop of `find_matches` (face_service.py:84-99): walk the
stored embeddings, skip zero-norm vectors, and append a match when the cosine
similarity passes the threshold and the photo was not seen yet. -/
noncomputable def collectMatches (selfie : List ℝ) (threshold : ℝ) :
    List StoredEmbedding → List String → List MatchResult
  | [], _ => []
  | s :: rest, seen =>
    if norm s.embedding = 0 then
      collectMatches selfie threshold rest seen
    else if threshold ≤ cosineSim selfie s.embedding ∧ s.photo_id ∉ seen then
      { photo_id := s.photo_id,
        similarity := round4 (cosineSim selfie s.embedding) }
        :: collectMatches selfie threshold rest (s.photo_id :: seen)
    else
      collectMatches selfie threshold rest seen

/-- `find_matches` (face_service.py:64-103): return `[]` for a zero-norm
selfie vector, otherwise collect the passing matches and sort them by
similarity, best first.  (`threshold=None` resolves to the configured
`SIMILARITY_THRESHOLD`; the threshold is an explicit argument here.) -/
noncomputable def find_matches (selfie : List ℝ) (stored : List StoredEmbedding)
    (threshold : ℝ) : List MatchResult :=
  if norm selfie = 0 then []
  else List.insertionSort simGE (collectMatches selfie threshold stored [])

/-- The first stored embedding for photo `pid` that would pass the loop's
guards (nonzero norm, similarity at or above threshold).  Used to state which
embedding's similarity `find_matches` reports for a photo. -/
noncomputable def firstPassing (selfie : List ℝ) (threshold : ℝ) (pid : String)
    (stored : List StoredEmbedding) : Option StoredEmbedding :=
  stored.find? fun s =>
    s.photo_id == pid && !decide (norm s.embedding = 0)
      && decide (threshold ≤ cosineSim selfie s.embedding)

/-! Embedding extractor: `detect_and_encode` (face_service.py:12-49). -/

/-- The `facial_area` dict returned by `DeepFace.represent` — each of the
keys `x`, `y`, `w`, `h` may be absent (`.get(key, 0)` defaults to 0). -/
structure FacialArea where
  x : Option Int
  y : Option Int
  w : Option Int
  h : Option Int

/-- One element of the list returned by `DeepFace.represent`. -/
structure RepResult where
  embedding : List ℝ
  facial_area : FacialArea

/-- One element of the list returned by `detect_and_encode`:
`{"embedding": ..., "location": [x, y, w, h]}`. -/
structure Face where
  embedding : List ℝ
  location : List Int

/-- `detect_and_encode` (face_service.py:12-49).  The argument is the outcome
of the `DeepFace.represent` call: `.ok results` when the call returns,
`.error msg` when it raises (corrupt file, missing path, detector failure).
The `try/except` catches *every* exception and returns the empty list
(face_service.py:46-49); otherwise results with a non-empty embedding are
kept and their location assembled from the facial area with default 0. -/
def detect_and_encode (represent : Except String (List RepResult)) :
    List Face :=
  match represent with
  | .error _ => []
  | .ok results =>
    results.filterMap fun r =>
      if r.embedding.isEmpty then none
      else some
        { embedding := r.embedding,
          location := [r.facial_area.x.getD 0, r.facial_area.y.getD 0,
            r.facial_area.w.getD 0, r.facial_area.h.getD 0] }


/-! Ingestion pipeline: photo status, progress counters, worker.
Embeds `app/routes/progress.py`, `app/services/worker.py` and the upload
loop of `app/routes/photos.py`. -/

/-- `photos.status` values (schema default `pending`; the workers write
`done` and `error`). -/
inductive PhotoStatus
  | pending
  | processing
  | done
  | error
deriving DecidableEq, Repr

/-- One photo row: the fields the pipeline mutates. -/
structure PhotoRec where
  status : PhotoStatus
  face_count : Nat
deriving DecidableEq, Repr

/-- The per-event progress dict of `_progress_store`
(progress.py:19-25): Python ints, all initialized to 0. -/
structure Progress where
  uploaded : Int
  processing : Int
  completed : Int
  failed : Int
  total : Int
deriving DecidableEq, Repr

/-- The dict a fresh `_progress_store[event_id]` (or `reset_progress`)
yields: all counters zero. -/
def Progress.init : Progress := ⟨0, 0, 0, 0, 0⟩

/-- The counter names `update_progress` accepts (progress.py:32-39);
`total` is assigned directly, not incremented. -/
inductive CounterKey
  | uploaded
  | processing
  | completed
  | failed
deriving DecidableEq, Repr

/-- `update_progress(event_id, status, count)` (progress.py:32-39):
`_progress_store[event_id][status] += count`. -/
def update_progress (p : Progress) (key : CounterKey) (count : Int) :
    Progress :=
  match key with
  | .uploaded => { p with uploaded := p.uploaded + count }
  | .processing => { p with processing := p.processing + count }
  | .completed => { p with completed := p.completed + count }
  | .failed => { p with failed := p.failed + count }

/-- The state the pipeline mutates for one event: the photo rows, the saved
embeddings, the progress dict, and the sequence of values the worker wrote
to the `status` column (to reason about the order of status transitions). -/
structure World where
  photos : List (String × PhotoRec)
  embeddings : List (String × List ℝ × List Int)
  progress : Progress
  status_log : List PhotoStatus

/-- `get_photo(photo_id)`: look the row up by id. -/
def getPhoto (w : World) (pid : String) : Option PhotoRec :=
  (w.photos.find? fun kv => kv.1 == pid).map Prod.snd

/-- `update_photo_status(photo_id, status, face_count)` (database_*.py):
`UPDATE photos SET status = ?, face_count = ? WHERE id = ?`.  The written
status is also appended to the transition log. -/
def update_photo_status (w : World) (pid : String) (st : PhotoStatus)
    (fc : Nat) : World :=
  { w with
    photos := w.photos.map fun kv =>
      if kv.1 = pid then (kv.1, { status := st, face_count := fc }) else kv,
    status_log := w.status_log ++ [st] }

/-- `save_face_embedding(photo_id, event_id, embedding, face_location)`:
inserts one row. -/
def save_face_embedding (w : World) (pid : String) (f : Face) : World :=
  { w with embeddings := w.embeddings ++ [(pid, f.embedding, f.location)] }

/-- The possible outcomes of the externals one `process_photo` run touches:
the image file is gone at processing time; extraction runs and returns
`faces` (possibly empty — `detect_and_encode` does not raise); or some call
in the body raises and the `except` handler runs. -/
inductive JobEnv
  | missingFile
  | extracted (faces : List Face)
  | crash

/-- `update_progress(event_id, key)` with the default `count=1`, acting on
the world. -/
def bumpProgress (w : World) (key : CounterKey) : World :=
  { w with progress := update_progress w.progress key 1 }

/-- `process_photo(photo_id, event_id)` (worker.py:34-92): look up the
photo (return unchanged when absent); bump the `processing` counter; then,
per outcome: missing file → status `error` + `failed` counter; extraction
with `faces` → embeddings saved, status `done` with `face_count =
len(faces)` + `completed` counter; exception → status `error` + `failed`
counter. -/
def process_photo (w : World) (pid : String) (env : JobEnv) : World :=
  match getPhoto w pid with
  | none => w
  | some _ =>
    let w1 := bumpProgress w .processing
    match env with
    | .missingFile =>
      bumpProgress (update_photo_status w1 pid .error 0) .failed
    | .extracted faces =>
      let w2 := faces.foldl (fun acc f => save_face_embedding acc pid f) w1
      bumpProgress (update_photo_status w2 pid .done faces.length) .completed
    | .crash =>
      bumpProgress (update_photo_status w1 pid .error 0) .failed

/-- One iteration of the upload loop of `api_upload_photos`
(photos.py:94-109): `create_photo` inserts a `pending` row, the photo is
submitted, and the `uploaded` counter is bumped. -/
def uploadOne (w : World) (pid : String) : World :=
  { w with
    photos := w.photos ++ [(pid, { status := .pending, face_count := 0 })],
    progress := update_progress w.progress .uploaded 1 }

/-- `api_upload_photos` at the progress/record level (photos.py:50-122):
`reset_progress`, one `uploadOne` per accepted file, then
`_progress_store[event_id]["total"] = len(uploaded_photos)` when any photo
was uploaded. -/
def uploadBatch (w : World) (pids : List String) : World :=
  let w0 := { w with progress := Progress.init }
  let w1 := pids.foldl uploadOne w0
  if pids.isEmpty then w1
  else { w1 with progress := { w1.progress with total := (pids.length : Int) } }

/-- The submitted jobs being drained by the worker pool, in the order the
scheduler happens to run them (counter updates commute, so whole-job
interleaving captures the reachable final counter states). -/
def runJobs (w : World) (jobs : List (String × JobEnv)) : World :=
  jobs.foldl (fun acc j => process_photo acc j.1 j.2) w

/-- All-counters-nonnegative, the safety part of the progress invariant. -/
def Progress.nonneg (p : Progress) : Prop :=
  0 ≤ p.uploaded ∧ 0 ≤ p.processing ∧ 0 ≤ p.completed ∧ 0 ≤ p.failed ∧
    0 ≤ p.total

/-- A world used by the concrete pipeline runs: one pending photo "p1". -/
def sampleWorld : World :=
  ⟨[("p1", ⟨.pending, 0⟩)], [], Progress.init, []⟩

/-- The world before any upload: no photos, zeroed counters. -/
def emptyWorld : World := ⟨[], [], Progress.init, []⟩


/-! Automatic retry sweep: `auto_retry_failed_photos`
(tasks_auto_retry.py:19-91). -/

/-- `MAX_RETRIES` (tasks_auto_retry.py:13). -/
def MAX_RETRIES : Nat := 3

/-- `RETRY_DELAYS` in seconds (tasks_auto_retry.py:16). -/
def RETRY_DELAYS : List Nat := [300, 900, 3600]

/-- A photo row as seen by the sweep: id, status and `retry_count`
(`photo.get("retry_count", 0)`). -/
structure RetryPhoto where
  id : String
  status : PhotoStatus
  retry_count : Nat
deriving DecidableEq, Repr

/-- The sweep's outcome: the retries scheduled via
`process_photo.apply_async` (photo id with its countdown delay) and the
photo ids skipped for exhausted budget. -/
structure RetryResult where
  retried : List (String × Nat)
  skipped : List String
deriving DecidableEq, Repr

/-- One iteration of the sweep's loop (tasks_auto_retry.py:42-81): skip a
photo whose `retry_count` reached `MAX_RETRIES`, otherwise schedule a retry
with delay `RETRY_DELAYS[min(retry_count, len(RETRY_DELAYS) - 1)]` and
record it. -/
def retryStep (acc : RetryResult) (p : RetryPhoto) : RetryResult :=
  if MAX_RETRIES ≤ p.retry_count then
    { acc with skipped := acc.skipped ++ [p.id] }
  else
    { acc with retried := acc.retried ++
        [(p.id, RETRY_DELAYS.getD
            (min p.retry_count (RETRY_DELAYS.length - 1)) 0)] }

/-- `auto_retry_failed_photos(event_id)` (tasks_auto_retry.py:20-91): select
the photos with status "error" and run the loop over them. -/
def auto_retry_failed_photos (photos : List RetryPhoto) : RetryResult :=
  (photos.filter fun p => p.status == PhotoStatus.error).foldl
    retryStep ⟨[], []⟩


/-! Basic facts about `dot`, `norm` and the loop of `find_matches`. -/

theorem dot_nil_left (b : List ℝ) : dot [] b = 0 := rfl

theorem dot_nil_right (a : List ℝ) : dot a [] = 0 := by
  simp [dot]

theorem dot_cons (x y : ℝ) (xs ys : List ℝ) :
    dot (x :: xs) (y :: ys) = x * y + dot xs ys := by
  simp [dot]

theorem dot_self_nonneg (v : List ℝ) : 0 ≤ dot v v := by
  induction v with
  | nil => simp [dot]
  | cons x xs ih => rw [dot_cons]; nlinarith [sq_nonneg x]

theorem norm_nonneg (v : List ℝ) : 0 ≤ norm v := Real.sqrt_nonneg _

theorem sq_norm (v : List ℝ) : norm v * norm v = dot v v := by
  rw [norm, Real.mul_self_sqrt (dot_self_nonneg v)]

/-- The inductive step of Cauchy-Schwarz. -/
theorem cs_aux (x y A B D : ℝ) (hA : 0 ≤ A) (hB : 0 ≤ B) (h : D * D ≤ A * B) :
    (x * y + D) * (x * y + D) ≤ (x * x + A) * (y * y + B) := by
  have hsa : Real.sqrt A * Real.sqrt A = A := Real.mul_self_sqrt hA
  have hsb : Real.sqrt B * Real.sqrt B = B := Real.mul_self_sqrt hB
  have hD : |D| ≤ Real.sqrt A * Real.sqrt B := by
    have h1 : Real.sqrt (D * D) ≤ Real.sqrt (A * B) := Real.sqrt_le_sqrt h
    rwa [Real.sqrt_mul_self_eq_abs, Real.sqrt_mul hA] at h1
  have h2 : x * y * D ≤ |x| * |y| * (Real.sqrt A * Real.sqrt B) := by
    calc x * y * D ≤ |x * y * D| := le_abs_self _
    _ = |x| * |y| * |D| := by rw [abs_mul, abs_mul]
    _ ≤ |x| * |y| * (Real.sqrt A * Real.sqrt B) :=
        mul_le_mul_of_nonneg_left hD (mul_nonneg (abs_nonneg x) (abs_nonneg y))
  have h3 : 2 * (|x| * |y| * (Real.sqrt A * Real.sqrt B)) ≤ x * x * B + y * y * A := by
    nlinarith [sq_nonneg (|x| * Real.sqrt B - |y| * Real.sqrt A),
      abs_mul_abs_self x, abs_mul_abs_self y]
  nlinarith [h, h2, h3]

/-- Cauchy-Schwarz for `dot`: the similarity's numerator squared is at most
the product of the squared norms. -/
theorem dot_sq_le (a b : List ℝ) : dot a b * dot a b ≤ dot a a * dot b b := by
  induction a generalizing b with
  | nil => simp [dot]
  | cons x xs ih =>
    cases b with
    | nil => simp [dot_nil_right]
    | cons y ys =>
      rw [dot_cons, dot_cons, dot_cons]
      exact cs_aux x y (dot xs xs) (dot ys ys) (dot xs ys)
        (dot_self_nonneg xs) (dot_self_nonneg ys) (ih ys)

theorem collectMatches_nil (q : List ℝ) (t : ℝ) (seen : List String) :
    collectMatches q t [] seen = [] := rfl

theorem collectMatches_cons_zero (q : List ℝ) (t : ℝ) (s : StoredEmbedding)
    (rest : List StoredEmbedding) (seen : List String)
    (h : norm s.embedding = 0) :
    collectMatches q t (s :: rest) seen = collectMatches q t rest seen := by
  rw [collectMatches, if_pos h]

theorem collectMatches_cons_match (q : List ℝ) (t : ℝ) (s : StoredEmbedding)
    (rest : List StoredEmbedding) (seen : List String)
    (h : ¬ norm s.embedding = 0)
    (hc : t ≤ cosineSim q s.embedding ∧ s.photo_id ∉ seen) :
    collectMatches q t (s :: rest) seen =
      { photo_id := s.photo_id,
        similarity := round4 (cosineSim q s.embedding) }
        :: collectMatches q t rest (s.photo_id :: seen) := by
  rw [collectMatches, if_neg h, if_pos hc]

theorem collectMatches_cons_skip (q : List ℝ) (t : ℝ) (s : StoredEmbedding)
    (rest : List StoredEmbedding) (seen : List String)
    (h : ¬ norm s.embedding = 0)
    (hc : ¬ (t ≤ cosineSim q s.embedding ∧ s.photo_id ∉ seen)) :
    collectMatches q t (s :: rest) seen = collectMatches q t rest seen := by
  rw [collectMatches, if_neg h, if_neg hc]

theorem find_matches_of_zero (q : List ℝ) (stored : List StoredEmbedding)
    (t : ℝ) (h : norm q = 0) : find_matches q stored t = [] := by
  rw [find_matches, if_pos h]

theorem find_matches_of_ne_zero (q : List ℝ) (stored : List StoredEmbedding)
    (t : ℝ) (h : ¬ norm q = 0) :
    find_matches q stored t =
      List.insertionSort simGE (collectMatches q t stored []) := by
  rw [find_matches, if_neg h]

theorem firstPassing_cons_self (q : List ℝ) (t : ℝ) (s : StoredEmbedding)
    (rest : List StoredEmbedding) (h0 : ¬ norm s.embedding = 0)
    (hc : t ≤ cosineSim q s.embedding) :
    firstPassing q t s.photo_id (s :: rest) = some s := by
  simp [firstPassing, List.find?, h0, hc]

theorem firstPassing_cons_ne (q : List ℝ) (t : ℝ) (pid : String)
    (s : StoredEmbedding) (rest : List StoredEmbedding)
    (hne : s.photo_id ≠ pid) :
    firstPassing q t pid (s :: rest) = firstPassing q t pid rest := by
  have hb : (s.photo_id == pid) = false := beq_eq_false_iff_ne.mpr hne
  simp [firstPassing, List.find?, hb]

theorem firstPassing_cons_zero (q : List ℝ) (t : ℝ) (pid : String)
    (s : StoredEmbedding) (rest : List StoredEmbedding)
    (h0 : norm s.embedding = 0) :
    firstPassing q t pid (s :: rest) = firstPassing q t pid rest := by
  simp [firstPassing, List.find?, h0]

theorem firstPassing_cons_below (q : List ℝ) (t : ℝ) (pid : String)
    (s : StoredEmbedding) (rest : List StoredEmbedding)
    (hc : ¬ t ≤ cosineSim q s.embedding) :
    firstPassing q t pid (s :: rest) = firstPassing q t pid rest := by
  simp [firstPassing, List.find?, hc]

/-- Every match accumulated by the loop of `find_matches` carries the rounded
cosine similarity of the *first* stored embedding of its photo that passes
the guards, and its photo was not in `seen` when the loop started. -/
theorem collectMatches_spec (q : List ℝ) (t : ℝ) :
    ∀ (es : List StoredEmbedding) (seen : List String) (m : MatchResult),
      m ∈ collectMatches q t es seen →
      m.photo_id ∉ seen ∧
      ∃ s, firstPassing q t m.photo_id es = some s ∧
        m.similarity = round4 (cosineSim q s.embedding) ∧
        t ≤ cosineSim q s.embedding ∧ ¬ norm s.embedding = 0 := by
  intro es
  induction es with
  | nil => intro seen m hm; simp [collectMatches_nil] at hm
  | cons s rest ih =>
    intro seen m hm
    by_cases h0 : norm s.embedding = 0
    · rw [collectMatches_cons_zero q t s rest seen h0] at hm
      obtain ⟨hseen, s', hfp, hsim, hpass, hnz⟩ := ih seen m hm
      exact ⟨hseen, s', by rw [firstPassing_cons_zero q t _ s rest h0]; exact hfp,
        hsim, hpass, hnz⟩
    · by_cases hc : t ≤ cosineSim q s.embedding ∧ s.photo_id ∉ seen
      · rw [collectMatches_cons_match q t s rest seen h0 hc] at hm
        rcases List.mem_cons.mp hm with hm | hm
        · subst hm
          exact ⟨hc.2, s, firstPassing_cons_self q t s rest h0 hc.1,
            rfl, hc.1, h0⟩
        · obtain ⟨hseen, s', hfp, hsim, hpass, hnz⟩ := ih _ m hm
          have hne : s.photo_id ≠ m.photo_id := by
            intro he; exact hseen (he ▸ List.mem_cons_self _ _)
          refine ⟨fun hmem => hseen (List.mem_cons_of_mem _ hmem), s', ?_,
            hsim, hpass, hnz⟩
          rw [firstPassing_cons_ne q t _ s rest hne]; exact hfp
      · rw [collectMatches_cons_skip q t s rest seen h0 hc] at hm
        obtain ⟨hseen, s', hfp, hsim, hpass, hnz⟩ := ih seen m hm
        refine ⟨hseen, s', ?_, hsim, hpass, hnz⟩
        by_cases hpa : t ≤ cosineSim q s.embedding
        · have hin : s.photo_id ∈ seen := by
            by_contra hni; exact hc ⟨hpa, hni⟩
          have hne : s.photo_id ≠ m.photo_id := fun he => hseen (he ▸ hin)
          rw [firstPassing_cons_ne q t _ s rest hne]; exact hfp
        · rw [firstPassing_cons_below q t _ s rest hpa]; exact hfp

/-- The loop never emits two matches for the same photo, and never emits a
photo already in `seen`. -/
theorem collectMatches_nodup (q : List ℝ) (t : ℝ) :
    ∀ (es : List StoredEmbedding) (seen : List String),
      ((collectMatches q t es seen).map MatchResult.photo_id).Nodup := by
  intro es
  induction es with
  | nil => intro seen; simp [collectMatches_nil]
  | cons s rest ih =>
    intro seen
    by_cases h0 : norm s.embedding = 0
    · rw [collectMatches_cons_zero q t s rest seen h0]; exact ih seen
    · by_cases hc : t ≤ cosineSim q s.embedding ∧ s.photo_id ∉ seen
      · rw [collectMatches_cons_match q t s rest seen h0 hc]
        refine List.nodup_cons.mpr ⟨?_, ih _⟩
        intro hmem
        obtain ⟨m, hm, hpid⟩ := List.mem_map.mp hmem
        obtain ⟨hseen, _⟩ := collectMatches_spec q t rest _ m hm
        exact hseen (hpid ▸ List.mem_cons_self _ _)
      · rw [collectMatches_cons_skip q t s rest seen h0 hc]; exact ih seen

theorem mem_find_matches (q : List ℝ) (es : List StoredEmbedding) (t : ℝ)
    (m : MatchResult) (h : ¬ norm q = 0) :
    m ∈ find_matches q es t ↔ m ∈ collectMatches q t es [] := by
  rw [find_matches_of_ne_zero q es t h]
  exact (List.perm_insertionSort simGE _).mem_iff

/-- Matches returned by `find_matches` have cosine similarity in `[-1, 1]`
(Cauchy-Schwarz), provided both vectors have nonzero norm. -/
theorem cosineSim_bounds (a b : List ℝ) (ha : ¬ norm a = 0)
    (hb : ¬ norm b = 0) : -1 ≤ cosineSim a b ∧ cosineSim a b ≤ 1 := by
  have h1 : 0 < norm a := lt_of_le_of_ne (norm_nonneg a) (Ne.symm ha)
  have h2 : 0 < norm b := lt_of_le_of_ne (norm_nonneg b) (Ne.symm hb)
  have hpos : 0 < norm a * norm b := mul_pos h1 h2
  have hN : norm a * norm b * (norm a * norm b) = dot a a * dot b b := by
    rw [mul_mul_mul_comm, sq_norm, sq_norm]
  have hDen : 0 < dot a a * dot b b := hN ▸ mul_pos hpos hpos
  have hsq : cosineSim a b * cosineSim a b ≤ 1 := by
    calc cosineSim a b * cosineSim a b
        = dot a b * dot a b / (norm a * norm b * (norm a * norm b)) := by
          rw [cosineSim, div_mul_div_comm]
    _ = dot a b * dot a b / (dot a a * dot b b) := by rw [hN]
    _ ≤ 1 := (div_le_one hDen).mpr (dot_sq_le a b)
  constructor
  · nlinarith [sq_nonneg (cosineSim a b + 1)]
  · nlinarith [sq_nonneg (cosineSim a b - 1)]

/-- Rounding to 4 decimals keeps a value of `[-1, 1]` inside `[-1, 1]`. -/
theorem round4_bounds (x : ℝ) (h1 : -1 ≤ x) (h2 : x ≤ 1) :
    -1 ≤ round4 x ∧ round4 x ≤ 1 := by
  have hlow : (-10000 : ℤ) ≤ round (x * 10000) := by
    rw [round_eq]
    apply Int.le_floor.mpr
    push_cast
    linarith
  have hhigh : round (x * 10000) ≤ 10000 := by
    rw [round_eq]
    have hx : x * 10000 + 1 / 2 < ((10001 : ℤ) : ℝ) := by push_cast; linarith
    exact Int.lt_add_one_iff.mp (Int.floor_lt.mpr hx)
  constructor
  · rw [round4, le_div_iff₀ (by norm_num : (0:ℝ) < 10000)]
    calc (-1 : ℝ) * 10000 = ((-10000 : ℤ) : ℝ) := by norm_num
    _ ≤ _ := by exact_mod_cast hlow
  · rw [round4, div_le_one (by norm_num : (0:ℝ) < 10000)]
    exact_mod_cast hhigh

/-! Concrete norm, cosine and rounding computations used by the
counterexamples and witnesses below. -/

theorem norm_10 : norm [(1:ℝ), 0] = 1 := by
  have h : dot [(1:ℝ), 0] [(1:ℝ), 0] = 1 := by norm_num [dot]
  rw [norm, h, Real.sqrt_one]

theorem norm_2120 : norm [(21:ℝ), 20] = 29 := by
  have h : dot [(21:ℝ), 20] [(21:ℝ), 20] = 841 := by norm_num [dot]
  rw [norm, h, show (841:ℝ) = 29 ^ 2 by norm_num,
    Real.sqrt_sq (by norm_num : (0:ℝ) ≤ 29)]

theorem norm_neg10 : norm [(-1:ℝ), 0] = 1 := by
  have h : dot [(-1:ℝ), 0] [(-1:ℝ), 0] = 1 := by norm_num [dot]
  rw [norm, h, Real.sqrt_one]

theorem norm_00 : norm [(0:ℝ), 0] = 0 := by
  have h : dot [(0:ℝ), 0] [(0:ℝ), 0] = 0 := by norm_num [dot]
  rw [norm, h, Real.sqrt_zero]

theorem cos_10_2120 : cosineSim [(1:ℝ), 0] [(21:ℝ), 20] = 21 / 29 := by
  rw [cosineSim, norm_10, norm_2120]
  norm_num [dot]

theorem cos_10_10 : cosineSim [(1:ℝ), 0] [(1:ℝ), 0] = 1 := by
  rw [cosineSim, norm_10]
  norm_num [dot]

theorem cos_10_neg10 : cosineSim [(1:ℝ), 0] [(-1:ℝ), 0] = -1 := by
  rw [cosineSim, norm_10, norm_neg10]
  norm_num [dot]

theorem round4_2129 : round4 ((21:ℝ) / 29) = 7241 / 10000 := by
  have h : round ((21:ℝ) / 29 * 10000) = 7241 := by
    rw [show (21:ℝ) / 29 * 10000 = 210000 / 29 by norm_num, round_eq,
      show (210000:ℝ) / 29 + 1 / 2 = 420029 / 58 by norm_num]
    apply Int.floor_eq_iff.mpr
    constructor
    · push_cast; norm_num
    · push_cast; norm_num
  rw [round4, h]
  norm_num

theorem round4_neg_one : round4 (-1 : ℝ) = -1 := by
  have h : round ((-1:ℝ) * 10000) = -10000 := by
    rw [show (-1:ℝ) * 10000 = ((-10000 : ℤ) : ℝ) by norm_num, round_intCast]
  rw [round4, h]
  norm_num

theorem insertionSort_singleton (m : MatchResult) :
    List.insertionSort simGE [m] = [m] := by
  simp [List.insertionSort, List.orderedInsert]

/-- Evaluation of `find_matches` on a photo "A" having two embeddings that
both pass the 0.4 threshold: the first one (similarity 21/29 ≈ 0.7241) wins,
not the better one (similarity 1). -/
theorem find_matches_eval_two_faces :
    find_matches [(1:ℝ), 0]
      [⟨"A", [21, 20]⟩, ⟨"A", [1, 0]⟩] (2 / 5)
      = [⟨"A", 7241 / 10000⟩] := by
  have hq : ¬ norm [(1:ℝ), 0] = 0 := by rw [norm_10]; norm_num
  have hz1 : ¬ norm (StoredEmbedding.mk "A" [21, 20]).embedding = 0 := by
    show ¬ norm [(21:ℝ), 20] = 0
    rw [norm_2120]; norm_num
  have hc1 : (2:ℝ) / 5 ≤
      cosineSim [(1:ℝ), 0] (StoredEmbedding.mk "A" [21, 20]).embedding ∧
      (StoredEmbedding.mk "A" [21, 20]).photo_id ∉ ([] : List String) := by
    constructor
    · show (2:ℝ) / 5 ≤ cosineSim [(1:ℝ), 0] [(21:ℝ), 20]
      rw [cos_10_2120]; norm_num
    · simp
  have hz2 : ¬ norm (StoredEmbedding.mk "A" [1, 0]).embedding = 0 := by
    show ¬ norm [(1:ℝ), 0] = 0
    rw [norm_10]; norm_num
  have hc2 : ¬ ((2:ℝ) / 5 ≤
      cosineSim [(1:ℝ), 0] (StoredEmbedding.mk "A" [1, 0]).embedding ∧
      (StoredEmbedding.mk "A" [1, 0]).photo_id ∉
        [(StoredEmbedding.mk "A" [21, 20]).photo_id]) := by
    intro hcon
    exact hcon.2 (by simp)
  rw [find_matches_of_ne_zero _ _ _ hq,
    collectMatches_cons_match _ _ _ _ _ hz1 hc1,
    collectMatches_cons_skip _ _ _ _ _ hz2 hc2,
    collectMatches_nil, insertionSort_singleton]
  have he : cosineSim [(1:ℝ), 0] (StoredEmbedding.mk "A" [21, 20]).embedding
      = 21 / 29 := cos_10_2120
  rw [he, round4_2129]

/-- Evaluation of `find_matches` with threshold `-1` on an opposite-direction
embedding: the returned similarity is `-1`. -/
theorem find_matches_eval_negative :
    find_matches [(1:ℝ), 0] [⟨"B", [-1, 0]⟩] (-1)
      = [⟨"B", -1⟩] := by
  have hq : ¬ norm [(1:ℝ), 0] = 0 := by rw [norm_10]; norm_num
  have hz1 : ¬ norm (StoredEmbedding.mk "B" [-1, 0]).embedding = 0 := by
    show ¬ norm [(-1:ℝ), 0] = 0
    rw [norm_neg10]; norm_num
  have hc1 : (-1:ℝ) ≤
      cosineSim [(1:ℝ), 0] (StoredEmbedding.mk "B" [-1, 0]).embedding ∧
      (StoredEmbedding.mk "B" [-1, 0]).photo_id ∉ ([] : List String) := by
    constructor
    · show (-1:ℝ) ≤ cosineSim [(1:ℝ), 0] [(-1:ℝ), 0]
      rw [cos_10_neg10]
    · simp
  rw [find_matches_of_ne_zero _ _ _ hq,
    collectMatches_cons_match _ _ _ _ _ hz1 hc1,
    collectMatches_nil, insertionSort_singleton]
  have he : cosineSim [(1:ℝ), 0] (StoredEmbedding.mk "B" [-1, 0]).embedding
      = -1 := cos_10_neg10
  rw [he, round4_neg_one]

/-- Evaluation of `find_matches` with the threshold set exactly to the raw
cosine similarity 21/29: the match is admitted (unrounded comparison) but the
reported, rounded similarity 0.7241 is strictly below the threshold. -/
theorem find_matches_eval_threshold_edge :
    find_matches [(1:ℝ), 0] [⟨"A", [21, 20]⟩] (21 / 29)
      = [⟨"A", 7241 / 10000⟩] := by
  have hq : ¬ norm [(1:ℝ), 0] = 0 := by rw [norm_10]; norm_num
  have hz1 : ¬ norm (StoredEmbedding.mk "A" [21, 20]).embedding = 0 := by
    show ¬ norm [(21:ℝ), 20] = 0
    rw [norm_2120]; norm_num
  have hc1 : (21:ℝ) / 29 ≤
      cosineSim [(1:ℝ), 0] (StoredEmbedding.mk "A" [21, 20]).embedding ∧
      (StoredEmbedding.mk "A" [21, 20]).photo_id ∉ ([] : List String) := by
    constructor
    · show (21:ℝ) / 29 ≤ cosineSim [(1:ℝ), 0] [(21:ℝ), 20]
      rw [cos_10_2120]
    · simp
  rw [find_matches_of_ne_zero _ _ _ hq,
    collectMatches_cons_match _ _ _ _ _ hz1 hc1,
    collectMatches_nil, insertionSort_singleton]
  have he : cosineSim [(1:ℝ), 0] (StoredEmbedding.mk "A" [21, 20]).embedding
      = 21 / 29 := cos_10_2120
  rw [he, round4_2129]

theorem round4_one : round4 (1 : ℝ) = 1 := by
  have h : round ((1:ℝ) * 10000) = 10000 := by
    rw [show (1:ℝ) * 10000 = ((10000 : ℤ) : ℝ) by norm_num, round_intCast]
  rw [round4, h]
  norm_num

/-- The loop of `find_matches` ignores stored embeddings whose norm is zero:
filtering them away does not change the result. -/
theorem collectMatches_filter_nonzero (q : List ℝ) (t : ℝ) :
    ∀ (es : List StoredEmbedding) (seen : List String),
      collectMatches q t (es.filter fun s => !decide (norm s.embedding = 0))
        seen = collectMatches q t es seen := by
  intro es
  induction es with
  | nil => intro seen; rfl
  | cons s rest ih =>
    intro seen
    by_cases h0 : norm s.embedding = 0
    · rw [collectMatches_cons_zero q t s rest seen h0]
      rw [List.filter_cons, if_neg (by simp [h0])]
      exact ih seen
    · rw [List.filter_cons, if_pos (by simp [h0])]
      by_cases hc : t ≤ cosineSim q s.embedding ∧ s.photo_id ∉ seen
      · rw [collectMatches_cons_match q t s _ seen h0 hc,
          collectMatches_cons_match q t s rest seen h0 hc, ih]
      · rw [collectMatches_cons_skip q t s _ seen h0 hc,
          collectMatches_cons_skip q t s rest seen h0 hc, ih]

/-! Claims about the similarity matcher. -/

/-- Claim C1, counterexample: photo "A" has two embeddings, both passing the
0.4 threshold against the query, with raw similarities 21/29 and 1.
`find_matches` returns one result for "A", but it carries the rounded
similarity of the first embedding (0.7241), strictly below the rounded
similarity of the best one (1): the claim "the result carries the highest
passing similarity" is false. -/
theorem C1_counterexample :
    find_matches [(1:ℝ), 0] [⟨"A", [21, 20]⟩, ⟨"A", [1, 0]⟩] (2 / 5)
      = [⟨"A", 7241 / 10000⟩] ∧
    (2:ℝ) / 5 ≤ cosineSim [(1:ℝ), 0] [(21:ℝ), 20] ∧
    (2:ℝ) / 5 ≤ cosineSim [(1:ℝ), 0] [(1:ℝ), 0] ∧
    (7241:ℝ) / 10000 < round4 (cosineSim [(1:ℝ), 0] [(1:ℝ), 0]) := by
  refine ⟨find_matches_eval_two_faces, ?_, ?_, ?_⟩
  · rw [cos_10_2120]; norm_num
  · rw [cos_10_10]; norm_num
  · rw [cos_10_10, round4_one]; norm_num

/-- Claim C1 (amended): `find_matches` returns at most one result per
`photo_id`, and the result returned for a photo carries the rounded cosine
similarity of the *first* stored embedding of that photo that passes the
guards (nonzero norm, similarity at or above threshold) — not necessarily
the highest-similarity one. -/
theorem C1_dedup_and_first_passing (q : List ℝ) (es : List StoredEmbedding)
    (t : ℝ) :
    ((find_matches q es t).map MatchResult.photo_id).Nodup ∧
    ∀ m ∈ find_matches q es t,
      ∃ s, firstPassing q t m.photo_id es = some s ∧
        m.similarity = round4 (cosineSim q s.embedding) ∧
        t ≤ cosineSim q s.embedding := by
  by_cases hq : norm q = 0
  · rw [find_matches_of_zero q es t hq]
    exact ⟨List.nodup_nil, by intro m hm; simp at hm⟩
  · constructor
    · rw [find_matches_of_ne_zero q es t hq]
      have hperm : List.Perm
          ((List.insertionSort simGE (collectMatches q t es [])).map
            MatchResult.photo_id)
          ((collectMatches q t es []).map MatchResult.photo_id) :=
        (List.perm_insertionSort simGE _).map _
      exact hperm.nodup_iff.mpr (collectMatches_nodup q t es [])
    · intro m hm
      obtain ⟨_, s, hfp, hsim, hpass, _⟩ :=
        collectMatches_spec q t es [] m ((mem_find_matches q es t m hq).mp hm)
      exact ⟨s, hfp, hsim, hpass⟩

/-- Claim C1, witness: the amended theorem applied to the two-embedding
counterexample input. -/
theorem C1_witness :
    ∃ s, firstPassing [(1:ℝ), 0] (2 / 5)
        (MatchResult.mk "A" (7241 / 10000)).photo_id
        [⟨"A", [21, 20]⟩, ⟨"A", [1, 0]⟩] = some s ∧
      (MatchResult.mk "A" (7241 / 10000)).similarity
        = round4 (cosineSim [(1:ℝ), 0] s.embedding) ∧
      (2:ℝ) / 5 ≤ cosineSim [(1:ℝ), 0] s.embedding :=
  (C1_dedup_and_first_passing [(1:ℝ), 0]
      [⟨"A", [21, 20]⟩, ⟨"A", [1, 0]⟩] (2 / 5)).2
    (MatchResult.mk "A" (7241 / 10000))
    (by rw [find_matches_eval_two_faces]; exact List.mem_singleton_self _)

/-- Claim C2, counterexample: with an explicitly passed threshold of `-1`
(any call is allowed to pass one), `find_matches` returns a similarity of
`-1`, which is not in `[0, 1]`: cosine similarity is not normalized to
`[0, 1]`, it ranges over `[-1, 1]`. -/
theorem C2_counterexample :
    (MatchResult.mk "B" (-1)) ∈
      find_matches [(1:ℝ), 0] [⟨"B", [-1, 0]⟩] (-1) ∧
    (MatchResult.mk "B" (-1)).similarity < 0 := by
  constructor
  · rw [find_matches_eval_negative]; exact List.mem_singleton_self _
  · show (-1:ℝ) < 0; norm_num

/-- Claim C2 (amended): every similarity returned by `find_matches` lies in
`[-1, 1]` — the range of (rounded) cosine similarity; the value reported is
the raw cosine `dot / (‖a‖·‖b‖)` rounded, with no shift into `[0, 1]`. -/
theorem C2_similarity_range (q : List ℝ) (es : List StoredEmbedding) (t : ℝ) :
    ∀ m ∈ find_matches q es t, -1 ≤ m.similarity ∧ m.similarity ≤ 1 := by
  intro m hm
  by_cases hq : norm q = 0
  · rw [find_matches_of_zero q es t hq] at hm; simp at hm
  · obtain ⟨_, s, _, hsim, _, hnz⟩ :=
      collectMatches_spec q t es [] m ((mem_find_matches q es t m hq).mp hm)
    obtain ⟨hlo, hhi⟩ := cosineSim_bounds q s.embedding hq hnz
    rw [hsim]
    exact round4_bounds _ hlo hhi

/-- Claim C2, witness: the amended range theorem applied to the concrete
negative-similarity run. -/
theorem C2_witness :
    -1 ≤ (MatchResult.mk "B" (-1)).similarity ∧
    (MatchResult.mk "B" (-1)).similarity ≤ 1 :=
  C2_similarity_range [(1:ℝ), 0] [⟨"B", [-1, 0]⟩] (-1)
    (MatchResult.mk "B" (-1))
    (by rw [find_matches_eval_negative]; exact List.mem_singleton_self _)

/-- Claim C7: a zero-norm query yields the empty result; zero-norm stored
embeddings are skipped (filtering them away changes nothing); and every
returned similarity is a quotient whose denominator `‖q‖·‖s‖` is nonzero —
no division by zero happens. -/
theorem C7_zero_norm_guards (q : List ℝ) (es : List StoredEmbedding) (t : ℝ) :
    (norm q = 0 → find_matches q es t = []) ∧
    find_matches q es t
      = find_matches q (es.filter fun s => !decide (norm s.embedding = 0)) t ∧
    ∀ m ∈ find_matches q es t,
      ∃ s ∈ es, ¬ norm q * norm s.embedding = 0 ∧
        m.similarity = round4 (dot q s.embedding /
          (norm q * norm s.embedding)) := by
  refine ⟨fun h => find_matches_of_zero q es t h, ?_, ?_⟩
  · by_cases hq : norm q = 0
    · rw [find_matches_of_zero q es t hq, find_matches_of_zero q _ t hq]
    · rw [find_matches_of_ne_zero q es t hq, find_matches_of_ne_zero q _ t hq,
        collectMatches_filter_nonzero]
  · intro m hm
    by_cases hq : norm q = 0
    · rw [find_matches_of_zero q es t hq] at hm; simp at hm
    · obtain ⟨_, s, hfp, hsim, _, hnz⟩ :=
        collectMatches_spec q t es [] m ((mem_find_matches q es t m hq).mp hm)
      refine ⟨s, List.mem_of_find?_eq_some hfp, mul_ne_zero hq hnz, hsim⟩

/-- Claim C7, witness: a zero query vector produces the empty match list. -/
theorem C7_witness :
    find_matches [(0:ℝ), 0] [⟨"A", [1, 0]⟩] (2 / 5) = [] :=
  (C7_zero_norm_guards [(0:ℝ), 0] [⟨"A", [1, 0]⟩] (2 / 5)).1 norm_00

/-- Claim C9: the list returned by `find_matches` is sorted non-increasing
by similarity, for every input. -/
theorem C9_sorted_descending (q : List ℝ) (es : List StoredEmbedding)
    (t : ℝ) :
    (find_matches q es t).Pairwise
      (fun a b => b.similarity ≤ a.similarity) := by
  by_cases hq : norm q = 0
  · rw [find_matches_of_zero q es t hq]; exact List.Pairwise.nil
  · rw [find_matches_of_ne_zero q es t hq]
    exact List.sorted_insertionSort simGE (collectMatches q t es [])

/-- Claim C10: the reported similarity is the raw cosine similarity of a
stored embedding rounded to 4 decimals while the admission test uses the
unrounded value, and there is a call where the returned rounded similarity
is strictly below the threshold that admitted it. -/
theorem C10_rounded_report_unrounded_threshold :
    (∀ (q : List ℝ) (es : List StoredEmbedding) (t : ℝ),
      ∀ m ∈ find_matches q es t,
        ∃ s ∈ es, m.photo_id = s.photo_id ∧
          m.similarity = round4 (cosineSim q s.embedding) ∧
          t ≤ cosineSim q s.embedding) ∧
    ∃ (q : List ℝ) (es : List StoredEmbedding) (t : ℝ) (m : MatchResult),
      m ∈ find_matches q es t ∧ m.similarity < t := by
  constructor
  · intro q es t m hm
    by_cases hq : norm q = 0
    · rw [find_matches_of_zero q es t hq] at hm; simp at hm
    · obtain ⟨_, s, hfp, hsim, hpass, _⟩ :=
        collectMatches_spec q t es [] m ((mem_find_matches q es t m hq).mp hm)
      have hpred := List.find?_some hfp
      simp only [Bool.and_eq_true, beq_iff_eq, Bool.not_eq_true',
        decide_eq_true_eq, decide_eq_false_iff_not] at hpred
      exact ⟨s, List.mem_of_find?_eq_some hfp, hpred.1.1.symm, hsim, hpass⟩
  · refine ⟨[(1:ℝ), 0], [⟨"A", [21, 20]⟩], 21 / 29,
      MatchResult.mk "A" (7241 / 10000), ?_, ?_⟩
    · rw [find_matches_eval_threshold_edge]; exact List.mem_singleton_self _
    · show (7241:ℝ) / 10000 < 21 / 29; norm_num

/-- Claim C10, witness: the characterization applied at the threshold-edge
run. -/
theorem C10_witness :
    ∃ s ∈ [(⟨"A", [21, 20]⟩ : StoredEmbedding)],
      (MatchResult.mk "A" (7241 / 10000)).photo_id = s.photo_id ∧
      (MatchResult.mk "A" (7241 / 10000)).similarity
        = round4 (cosineSim [(1:ℝ), 0] s.embedding) ∧
      (21:ℝ) / 29 ≤ cosineSim [(1:ℝ), 0] s.embedding :=
  C10_rounded_report_unrounded_threshold.1 [(1:ℝ), 0]
    [⟨"A", [21, 20]⟩] (21 / 29) (MatchResult.mk "A" (7241 / 10000))
    (by rw [find_matches_eval_threshold_edge]; exact List.mem_singleton_self _)

/-- Claim C3, counterexample: an I/O failure (missing path, modelled as the
`represent` call raising) produces exactly the same output as a successful
call that found zero faces — the empty list.  The two conditions are not
distinguishable in the output of `detect_and_encode`, refuting the claim
that it signals errors distinctly from the empty result. -/
theorem C3_counterexample :
    detect_and_encode (.error "missing path") = detect_and_encode (.ok []) ∧
    detect_and_encode (.error "missing path") = [] := ⟨rfl, rfl⟩

/-- Claim C3 (amended): `detect_and_encode` returns the empty list exactly
when the `represent` call raised (any I/O or processing failure) or returned
no result with a non-empty embedding; failures are therefore
indistinguishable from the legitimate zero-face result. -/
theorem C3_empty_iff_error_or_no_face (represent : Except String (List RepResult)) :
    detect_and_encode represent = [] ↔
      (∀ results, represent = .ok results →
        ∀ r ∈ results, r.embedding = []) := by
  cases represent with
  | error e =>
    simp only [detect_and_encode]
    constructor
    · intro _ results h; cases h
    · intro _; trivial
  | ok results =>
    simp only [detect_and_encode]
    rw [List.filterMap_eq_nil_iff]
    constructor
    · intro h rs hrs r hr
      cases hrs
      have := h r hr
      by_cases he : r.embedding.isEmpty
      · exact List.isEmpty_iff.mp he
      · rw [if_neg he] at this; cases this
    · intro h r hr
      have hemp : r.embedding = [] := h results rfl r hr
      rw [if_pos (by rw [hemp]; rfl)]

/-- Claim C3, witness: the amended characterization applied to a raising
call. -/
theorem C3_witness : detect_and_encode (.error "corrupt file") = [] :=
  (C3_empty_iff_error_or_no_face (.error "corrupt file")).mpr
    (fun _ h => by cases h)

theorem saveFold_photos (pid : String) :
    ∀ (faces : List Face) (w : World),
      (faces.foldl (fun acc f => save_face_embedding acc pid f) w).photos
        = w.photos := by
  intro faces
  induction faces with
  | nil => intro w; rfl
  | cons f rest ih => intro w; rw [List.foldl_cons, ih]; rfl

theorem saveFold_progress (pid : String) :
    ∀ (faces : List Face) (w : World),
      (faces.foldl (fun acc f => save_face_embedding acc pid f) w).progress
        = w.progress := by
  intro faces
  induction faces with
  | nil => intro w; rfl
  | cons f rest ih => intro w; rw [List.foldl_cons, ih]; rfl

theorem saveFold_status_log (pid : String) :
    ∀ (faces : List Face) (w : World),
      (faces.foldl (fun acc f => save_face_embedding acc pid f) w).status_log
        = w.status_log := by
  intro faces
  induction faces with
  | nil => intro w; rfl
  | cons f rest ih => intro w; rw [List.foldl_cons, ih]; rfl

theorem update_photo_status_keys (w : World) (pid : String)
    (st : PhotoStatus) (fc : Nat) :
    (update_photo_status w pid st fc).photos.map Prod.fst
      = w.photos.map Prod.fst := by
  rw [update_photo_status, List.map_map]
  apply List.map_congr_left
  intro kv _
  by_cases h : kv.1 = pid
  · simp [h]
  · simp [h]

theorem bumpProgress_photos (w : World) (k : CounterKey) :
    (bumpProgress w k).photos = w.photos := rfl

theorem bumpProgress_status_log (w : World) (k : CounterKey) :
    (bumpProgress w k).status_log = w.status_log := rfl

theorem getPhoto_bumpProgress (w : World) (k : CounterKey) (pid : String) :
    getPhoto (bumpProgress w k) pid = getPhoto w pid := rfl

theorem update_photo_status_log_eq (w : World) (pid : String)
    (st : PhotoStatus) (fc : Nat) :
    (update_photo_status w pid st fc).status_log
      = w.status_log ++ [st] := rfl

theorem process_photo_keys (w : World) (pid : String) (env : JobEnv) :
    (process_photo w pid env).photos.map Prod.fst
      = w.photos.map Prod.fst := by
  rw [process_photo]
  cases hg : getPhoto w pid with
  | none => rfl
  | some r =>
    cases env with
    | missingFile =>
      rw [bumpProgress_photos, update_photo_status_keys]
      rfl
    | extracted faces =>
      rw [bumpProgress_photos, update_photo_status_keys, saveFold_photos]
      rfl
    | crash =>
      rw [bumpProgress_photos, update_photo_status_keys]
      rfl

theorem getPhoto_isSome_iff (w : World) (pid : String) :
    (getPhoto w pid).isSome ↔ pid ∈ w.photos.map Prod.fst := by
  rw [getPhoto, Option.isSome_map']
  rw [List.find?_isSome]
  constructor
  · rintro ⟨kv, hkv, hb⟩
    exact List.mem_map.mpr ⟨kv, hkv, (beq_iff_eq.mp hb)⟩
  · rintro hmem
    obtain ⟨kv, hkv, he⟩ := List.mem_map.mp hmem
    exact ⟨kv, hkv, beq_iff_eq.mpr he⟩

theorem getPhoto_isSome_process (w : World) (pid : String) (env : JobEnv)
    (pid2 : String) :
    (getPhoto (process_photo w pid env) pid2).isSome
      ↔ (getPhoto w pid2).isSome := by
  rw [getPhoto_isSome_iff, getPhoto_isSome_iff, process_photo_keys]

theorem find?_update_photos (pid : String) (st : PhotoStatus) (fc : Nat) :
    ∀ (l : List (String × PhotoRec)),
      ((l.map fun kv =>
          if kv.1 = pid then (kv.1, PhotoRec.mk st fc) else kv).find?
        fun kv => kv.1 == pid)
      = ((l.find? fun kv => kv.1 == pid).map
          fun _ => (pid, PhotoRec.mk st fc)) := by
  intro l
  induction l with
  | nil => rfl
  | cons a l ih =>
    by_cases h : a.1 = pid
    · rw [List.map_cons, if_pos h]
      rw [List.find?_cons_of_pos _ (by simp [h]),
        List.find?_cons_of_pos _ (by simp [h])]
      simp [h]
    · rw [List.map_cons, if_neg h]
      rw [List.find?_cons_of_neg _ (by simp [h]),
        List.find?_cons_of_neg _ (by simp [h])]
      exact ih

theorem getPhoto_update_self (w : World) (pid : String) (st : PhotoStatus)
    (fc : Nat) (h : (getPhoto w pid).isSome) :
    getPhoto (update_photo_status w pid st fc) pid
      = some (PhotoRec.mk st fc) := by
  obtain ⟨kv, hkv⟩ := Option.isSome_iff_exists.mp (by
    rw [getPhoto] at h
    rwa [Option.isSome_map'] at h)
  rw [getPhoto, update_photo_status]
  show ((w.photos.map fun kv =>
      if kv.1 = pid then (kv.1, PhotoRec.mk st fc) else kv).find?
    fun kv => kv.1 == pid).map Prod.snd = _
  rw [find?_update_photos, hkv]
  rfl

theorem process_photo_progress_delta (w : World) (pid : String) (env : JobEnv)
    (h : (getPhoto w pid).isSome) :
    (process_photo w pid env).progress.completed +
        (process_photo w pid env).progress.failed
      = w.progress.completed + w.progress.failed + 1 ∧
    (process_photo w pid env).progress.total = w.progress.total ∧
    (process_photo w pid env).progress.uploaded = w.progress.uploaded ∧
    (process_photo w pid env).progress.processing
      = w.progress.processing + 1 := by
  obtain ⟨r, hr⟩ := Option.isSome_iff_exists.mp h
  rw [process_photo, hr]
  cases env with
  | missingFile =>
    refine ⟨?_, rfl, rfl, rfl⟩
    simp [bumpProgress, update_photo_status, update_progress]
    ring
  | extracted faces =>
    refine ⟨?_, ?_, ?_, ?_⟩
    · simp [bumpProgress, update_photo_status, update_progress, saveFold_progress]
      ring
    · simp [bumpProgress, update_photo_status, update_progress, saveFold_progress]
    · simp [bumpProgress, update_photo_status, update_progress, saveFold_progress]
    · simp [bumpProgress, update_photo_status, update_progress, saveFold_progress]
  | crash =>
    refine ⟨?_, rfl, rfl, rfl⟩
    simp [bumpProgress, update_photo_status, update_progress]
    ring

theorem process_photo_progress_same (w : World) (pid : String) (env : JobEnv)
    (h : getPhoto w pid = none) :
    process_photo w pid env = w := by
  rw [process_photo, h]

theorem process_photo_nonneg (w : World) (pid : String) (env : JobEnv)
    (h : w.progress.nonneg) : (process_photo w pid env).progress.nonneg := by
  obtain ⟨h1, h2, h3, h4, h5⟩ := h
  rw [process_photo]
  cases hg : getPhoto w pid with
  | none => exact ⟨h1, h2, h3, h4, h5⟩
  | some r =>
    cases env with
    | missingFile =>
      refine ⟨?_, ?_, ?_, ?_, ?_⟩ <;>
        simp [bumpProgress, update_photo_status, update_progress] <;> omega
    | extracted faces =>
      refine ⟨?_, ?_, ?_, ?_, ?_⟩ <;>
        simp [bumpProgress, update_photo_status, update_progress, saveFold_progress] <;>
          omega
    | crash =>
      refine ⟨?_, ?_, ?_, ?_, ?_⟩ <;>
        simp [bumpProgress, update_photo_status, update_progress] <;> omega

theorem runJobs_nil (w : World) : runJobs w [] = w := rfl

theorem runJobs_cons (w : World) (j : String × JobEnv)
    (rest : List (String × JobEnv)) :
    runJobs w (j :: rest) = runJobs (process_photo w j.1 j.2) rest := rfl

theorem runJobs_nonneg :
    ∀ (jobs : List (String × JobEnv)) (w : World), w.progress.nonneg →
      (runJobs w jobs).progress.nonneg := by
  intro jobs
  induction jobs with
  | nil => intro w h; exact h
  | cons j rest ih =>
    intro w h
    rw [runJobs_cons]
    exact ih _ (process_photo_nonneg w j.1 j.2 h)

/-- Every job whose photo row exists contributes exactly one `completed` or
`failed` increment; `total` is never touched by the workers. -/
theorem runJobs_accounting :
    ∀ (jobs : List (String × JobEnv)) (w : World),
      (∀ j ∈ jobs, (getPhoto w j.1).isSome) →
      (runJobs w jobs).progress.completed + (runJobs w jobs).progress.failed
        = w.progress.completed + w.progress.failed + jobs.length ∧
      (runJobs w jobs).progress.total = w.progress.total := by
  intro jobs
  induction jobs with
  | nil => intro w _; simp [runJobs_nil]
  | cons j rest ih =>
    intro w h
    have hj : (getPhoto w j.1).isSome := h j (List.mem_cons_self _ _)
    obtain ⟨d1, d2, _, _⟩ := process_photo_progress_delta w j.1 j.2 hj
    have hrest : ∀ j2 ∈ rest,
        (getPhoto (process_photo w j.1 j.2) j2.1).isSome := by
      intro j2 hj2
      rw [getPhoto_isSome_process]
      exact h j2 (List.mem_cons_of_mem _ hj2)
    obtain ⟨e1, e2⟩ := ih (process_photo w j.1 j.2) hrest
    rw [runJobs_cons]
    constructor
    · rw [e1, d1]
      simp [List.length_cons]
      ring
    · rw [e2, d2]

theorem uploadFold_progress :
    ∀ (pids : List String) (w : World),
      (pids.foldl uploadOne w).progress.uploaded
        = w.progress.uploaded + pids.length ∧
      (pids.foldl uploadOne w).progress.processing = w.progress.processing ∧
      (pids.foldl uploadOne w).progress.completed = w.progress.completed ∧
      (pids.foldl uploadOne w).progress.failed = w.progress.failed ∧
      (pids.foldl uploadOne w).progress.total = w.progress.total := by
  intro pids
  induction pids with
  | nil => intro w; refine ⟨by simp, rfl, rfl, rfl, rfl⟩
  | cons p rest ih =>
    intro w
    rw [List.foldl_cons]
    obtain ⟨e1, e2, e3, e4, e5⟩ := ih (uploadOne w p)
    refine ⟨?_, ?_, ?_, ?_, ?_⟩
    · rw [e1]
      show w.progress.uploaded + 1 + (rest.length : Int)
        = w.progress.uploaded + ((rest.length + 1 : Nat) : Int)
      push_cast
      ring
    · rw [e2]; rfl
    · rw [e3]; rfl
    · rw [e4]; rfl
    · rw [e5]; rfl

theorem uploadFold_photos :
    ∀ (pids : List String) (w : World),
      (pids.foldl uploadOne w).photos
        = w.photos ++ pids.map
            (fun p => (p, PhotoRec.mk PhotoStatus.pending 0)) := by
  intro pids
  induction pids with
  | nil => intro w; simp
  | cons p rest ih =>
    intro w
    rw [List.foldl_cons, ih]
    simp [uploadOne]

theorem uploadBatch_counters (w : World) (pids : List String) :
    (uploadBatch w pids).progress.uploaded = pids.length ∧
    (uploadBatch w pids).progress.processing = 0 ∧
    (uploadBatch w pids).progress.completed = 0 ∧
    (uploadBatch w pids).progress.failed = 0 ∧
    (uploadBatch w pids).progress.total = pids.length := by
  rw [uploadBatch]
  obtain ⟨e1, e2, e3, e4, e5⟩ :=
    uploadFold_progress pids { w with progress := Progress.init }
  by_cases hemp : pids.isEmpty
  · rw [if_pos hemp]
    have hlen : pids.length = 0 := by
      cases pids with
      | nil => rfl
      | cons a l => cases hemp
    refine ⟨?_, ?_, ?_, ?_, ?_⟩
    · rw [e1, hlen]; show Progress.init.uploaded + ((0:Nat):Int) = ((0:Nat):Int)
      simp [Progress.init]
    · rw [e2]; rfl
    · rw [e3]; rfl
    · rw [e4]; rfl
    · rw [e5, hlen]; rfl
  · rw [if_neg hemp]
    refine ⟨?_, ?_, ?_, ?_, ?_⟩
    · show (pids.foldl uploadOne _).progress.uploaded = _
      rw [e1]; show Progress.init.uploaded + (pids.length : Int) = _
      simp [Progress.init]
    · show (pids.foldl uploadOne _).progress.processing = _
      rw [e2]; rfl
    · show (pids.foldl uploadOne _).progress.completed = _
      rw [e3]; rfl
    · show (pids.foldl uploadOne _).progress.failed = _
      rw [e4]; rfl
    · rfl

theorem uploadBatch_nonneg (w : World) (pids : List String) :
    (uploadBatch w pids).progress.nonneg := by
  obtain ⟨e1, e2, e3, e4, e5⟩ := uploadBatch_counters w pids
  exact ⟨by rw [e1]; positivity, by rw [e2], by rw [e3], by rw [e4],
    by rw [e5]; positivity⟩

theorem getPhoto_uploadBatch_isSome (w : World) (pids : List String)
    (pid : String) (h : pid ∈ pids) :
    (getPhoto (uploadBatch w pids) pid).isSome := by
  rw [getPhoto_isSome_iff]
  have hph : (uploadBatch w pids).photos
      = w.photos ++ pids.map (fun p => (p, PhotoRec.mk PhotoStatus.pending 0)) := by
    rw [uploadBatch]
    by_cases hemp : pids.isEmpty
    · rw [if_pos hemp]; exact uploadFold_photos pids _
    · rw [if_neg hemp]
      show (pids.foldl uploadOne _).photos = _
      exact uploadFold_photos pids _
  rw [hph, List.map_append, List.map_map]
  apply List.mem_append_right
  exact List.mem_map.mpr ⟨pid, h, rfl⟩

theorem getPhoto_saveFold (w : World) (pid pid2 : String)
    (faces : List Face) :
    getPhoto (faces.foldl (fun acc f => save_face_embedding acc pid f) w)
      pid2 = getPhoto w pid2 := by
  rw [getPhoto, saveFold_photos]
  rfl

/-- The row after a successful extraction: status `done`, `face_count` the
number of faces. -/
theorem getPhoto_process_extracted (w : World) (pid : String)
    (faces : List Face) (r : PhotoRec) (hr : getPhoto w pid = some r) :
    getPhoto (process_photo w pid (.extracted faces)) pid
      = some (PhotoRec.mk PhotoStatus.done faces.length) := by
  have hred : process_photo w pid (.extracted faces)
      = bumpProgress (update_photo_status
          (faces.foldl (fun acc f => save_face_embedding acc pid f)
            (bumpProgress w .processing)) pid .done faces.length)
          .completed := by
    rw [process_photo, hr]
  rw [hred, getPhoto_bumpProgress]
  apply getPhoto_update_self
  rw [getPhoto_saveFold, getPhoto_bumpProgress, hr]
  rfl

/-- The row after a missing-file or crashed run: status `error`,
`face_count` reset to 0 (the `update_photo_status` default). -/
theorem getPhoto_process_error (w : World) (pid : String) (env : JobEnv)
    (r : PhotoRec) (hr : getPhoto w pid = some r)
    (henv : env = .missingFile ∨ env = .crash) :
    getPhoto (process_photo w pid env) pid
      = some (PhotoRec.mk PhotoStatus.error 0) := by
  have hup : getPhoto (bumpProgress w .processing) pid = some r := hr
  rcases henv with h | h <;> subst h
  · have hred : process_photo w pid .missingFile
        = bumpProgress (update_photo_status (bumpProgress w .processing)
            pid .error 0) .failed := by
      rw [process_photo, hr]
    rw [hred, getPhoto_bumpProgress]
    apply getPhoto_update_self
    rw [hup]
    rfl
  · have hred : process_photo w pid .crash
        = bumpProgress (update_photo_status (bumpProgress w .processing)
            pid .error 0) .failed := by
      rw [process_photo, hr]
    rw [hred, getPhoto_bumpProgress]
    apply getPhoto_update_self
    rw [hup]
    rfl

/-- The only value `process_photo` ever writes to the `status` column is
`done` or `error` — one single write per run, and never `processing`. -/
theorem process_photo_status_writes (w : World) (pid : String) (env : JobEnv)
    (r : PhotoRec) (hr : getPhoto w pid = some r) :
    (process_photo w pid env).status_log = w.status_log ++ [PhotoStatus.done]
    ∨ (process_photo w pid env).status_log
        = w.status_log ++ [PhotoStatus.error] := by
  cases env with
  | missingFile =>
    right
    have hred : process_photo w pid .missingFile
        = bumpProgress (update_photo_status (bumpProgress w .processing)
            pid .error 0) .failed := by
      rw [process_photo, hr]
    rw [hred, bumpProgress_status_log, update_photo_status_log_eq,
      bumpProgress_status_log]
  | extracted faces =>
    left
    have hred : process_photo w pid (.extracted faces)
        = bumpProgress (update_photo_status
            (faces.foldl (fun acc f => save_face_embedding acc pid f)
              (bumpProgress w .processing)) pid .done faces.length)
            .completed := by
      rw [process_photo, hr]
    rw [hred, bumpProgress_status_log, update_photo_status_log_eq,
      saveFold_status_log, bumpProgress_status_log]
  | crash =>
    right
    have hred : process_photo w pid .crash
        = bumpProgress (update_photo_status (bumpProgress w .processing)
            pid .error 0) .failed := by
      rw [process_photo, hr]
    rw [hred, bumpProgress_status_log, update_photo_status_log_eq,
      bumpProgress_status_log]

/-! Claims about the ingestion pipeline. -/

/-- Claim C4, counterexample: on a concrete world with one pending photo,
a successful zero-face run moves the photo's `status` column directly from
`pending` to `done`; the single status write is `done` and no write of
`processing` ever happens — the `status` field does not follow
`pending → processing → done`; only the progress *counter* named
"processing" is touched. -/
theorem C4_counterexample :
    getPhoto sampleWorld "p1" = some ⟨PhotoStatus.pending, 0⟩ ∧
    getPhoto (process_photo sampleWorld "p1" (.extracted [])) "p1"
      = some ⟨PhotoStatus.done, 0⟩ ∧
    (process_photo sampleWorld "p1" (.extracted [])).status_log
      = [PhotoStatus.done] ∧
    PhotoStatus.processing ∉
      (process_photo sampleWorld "p1" (.extracted [])).status_log := by
  refine ⟨rfl, rfl, rfl, by decide⟩

/-- Claim C4 (amended): when extraction begins the worker increments the
`processing` *progress counter* (not the photo's status); the photo's
`status` column receives exactly one write, `done` or `error` — it
transitions directly from `pending` to `done`/`error` and is never set to
`processing`. -/
theorem C4_status_machine (w : World) (pid : String) (env : JobEnv)
    (r : PhotoRec) (hr : getPhoto w pid = some r) :
    (process_photo w pid env).progress.processing
      = w.progress.processing + 1 ∧
    ((process_photo w pid env).status_log
        = w.status_log ++ [PhotoStatus.done] ∨
      (process_photo w pid env).status_log
        = w.status_log ++ [PhotoStatus.error]) ∧
    (w.status_log = [] →
      PhotoStatus.processing ∉ (process_photo w pid env).status_log) ∧
    ∃ r2, getPhoto (process_photo w pid env) pid = some r2 ∧
      (r2.status = PhotoStatus.done ∨ r2.status = PhotoStatus.error) := by
  have hsome : (getPhoto w pid).isSome := by rw [hr]; rfl
  obtain ⟨_, _, _, hproc⟩ := process_photo_progress_delta w pid env hsome
  refine ⟨hproc, process_photo_status_writes w pid env r hr, ?_, ?_⟩
  · intro hempty
    rcases process_photo_status_writes w pid env r hr with h | h <;>
      rw [h, hempty] <;> simp
  · cases env with
    | missingFile =>
      exact ⟨_, getPhoto_process_error w pid _ r hr (Or.inl rfl), Or.inr rfl⟩
    | extracted faces =>
      exact ⟨_, getPhoto_process_extracted w pid faces r hr, Or.inl rfl⟩
    | crash =>
      exact ⟨_, getPhoto_process_error w pid _ r hr (Or.inr rfl), Or.inr rfl⟩

/-- Claim C4, witness: the amended theorem at the concrete one-photo
world. -/
theorem C4_witness :
    (process_photo sampleWorld "p1" (.extracted [])).progress.processing
      = sampleWorld.progress.processing + 1 ∧
    ((process_photo sampleWorld "p1" (.extracted [])).status_log
        = sampleWorld.status_log ++ [PhotoStatus.done] ∨
      (process_photo sampleWorld "p1" (.extracted [])).status_log
        = sampleWorld.status_log ++ [PhotoStatus.error]) ∧
    (sampleWorld.status_log = [] →
      PhotoStatus.processing ∉
        (process_photo sampleWorld "p1" (.extracted [])).status_log) ∧
    ∃ r2, getPhoto (process_photo sampleWorld "p1" (.extracted [])) "p1"
        = some r2 ∧
      (r2.status = PhotoStatus.done ∨ r2.status = PhotoStatus.error) :=
  C4_status_machine sampleWorld "p1" (.extracted [])
    ⟨PhotoStatus.pending, 0⟩ rfl

/-- Claim C8: a photo whose extraction succeeds with zero detected faces is
set to status `done` with `face_count = 0` (and counted as `completed`,
not `failed`) — never to `error`. -/
theorem C8_zero_faces_done (w : World) (pid : String) (r : PhotoRec)
    (hr : getPhoto w pid = some r) :
    getPhoto (process_photo w pid (.extracted [])) pid
      = some (PhotoRec.mk PhotoStatus.done 0) ∧
    (process_photo w pid (.extracted [])).progress.completed
      = w.progress.completed + 1 ∧
    (process_photo w pid (.extracted [])).progress.failed
      = w.progress.failed := by
  refine ⟨getPhoto_process_extracted w pid [] r hr, ?_, ?_⟩
  · have hred : process_photo w pid (.extracted [])
        = bumpProgress (update_photo_status (bumpProgress w .processing)
            pid .done 0) .completed := by
      rw [process_photo, hr]
      rfl
    rw [hred]
    simp [bumpProgress, update_photo_status, update_progress]
  · have hred : process_photo w pid (.extracted [])
        = bumpProgress (update_photo_status (bumpProgress w .processing)
            pid .done 0) .completed := by
      rw [process_photo, hr]
      rfl
    rw [hred]
    simp [bumpProgress, update_photo_status, update_progress]

/-- Claim C8, witness: the zero-face run at the concrete one-photo world. -/
theorem C8_witness :
    getPhoto (process_photo sampleWorld "p1" (.extracted [])) "p1"
      = some (PhotoRec.mk PhotoStatus.done 0) ∧
    (process_photo sampleWorld "p1" (.extracted [])).progress.completed
      = sampleWorld.progress.completed + 1 ∧
    (process_photo sampleWorld "p1" (.extracted [])).progress.failed
      = sampleWorld.progress.failed :=
  C8_zero_faces_done sampleWorld "p1" ⟨PhotoStatus.pending, 0⟩ rfl

/-- Claim C5: after an upload batch of `pids` (reset, one `uploaded`
increment per photo, `total` set to the batch size) and the completion of
one submitted job per photo — run in any order —
`completed + failed = total`, and at every intermediate point all counters
are nonnegative.  Each job contributes exactly one `completed`-or-`failed`
increment (`runJobs_accounting`), so no outcome is double counted. -/
theorem C5_progress_accounting (w : World) (pids : List String)
    (jobs : List (String × JobEnv))
    (hperm : List.Perm (jobs.map Prod.fst) pids) :
    ((runJobs (uploadBatch w pids) jobs).progress.completed
        + (runJobs (uploadBatch w pids) jobs).progress.failed
      = (runJobs (uploadBatch w pids) jobs).progress.total) ∧
    ∀ k, ((runJobs (uploadBatch w pids) (jobs.take k)).progress).nonneg := by
  have hsome : ∀ j ∈ jobs, (getPhoto (uploadBatch w pids) j.1).isSome := by
    intro j hj
    exact getPhoto_uploadBatch_isSome w pids j.1
      (hperm.subset (List.mem_map_of_mem _ hj))
  obtain ⟨e1, e2⟩ := runJobs_accounting jobs (uploadBatch w pids) hsome
  obtain ⟨u1, u2, u3, u4, u5⟩ := uploadBatch_counters w pids
  constructor
  · rw [e1, e2, u3, u4, u5]
    have hlen : jobs.length = pids.length := by
      have hl := hperm.length_eq
      rwa [List.length_map] at hl
    rw [hlen]
    ring
  · intro k
    exact runJobs_nonneg (jobs.take k) _ (uploadBatch_nonneg w pids)

/-- Claim C5, witness: a two-photo batch, jobs completing out of order, one
success and one failure. -/
theorem C5_witness :
    ((runJobs (uploadBatch emptyWorld ["a", "b"])
          [("b", .crash), ("a", .extracted [])]).progress.completed
        + (runJobs (uploadBatch emptyWorld ["a", "b"])
            [("b", .crash), ("a", .extracted [])]).progress.failed
      = (runJobs (uploadBatch emptyWorld ["a", "b"])
          [("b", .crash), ("a", .extracted [])]).progress.total) ∧
    ∀ k, ((runJobs (uploadBatch emptyWorld ["a", "b"])
        ([("b", .crash), ("a", .extracted [])].take k)).progress).nonneg :=
  C5_progress_accounting emptyWorld ["a", "b"]
    [("b", .crash), ("a", .extracted [])] (List.Perm.swap "a" "b" [])

theorem retryFold_retried_mem (photos : List RetryPhoto) :
    ∀ (acc : RetryResult) (pr : String × Nat),
      pr ∈ (photos.foldl retryStep acc).retried →
      pr ∈ acc.retried ∨
        ∃ p ∈ photos, p.id = pr.1 ∧ p.retry_count < MAX_RETRIES := by
  induction photos with
  | nil => intro acc pr h; exact Or.inl h
  | cons p rest ih =>
    intro acc pr h
    rw [List.foldl_cons] at h
    by_cases hb : MAX_RETRIES ≤ p.retry_count
    · rw [retryStep, if_pos hb] at h
      rcases ih _ pr h with hin | ⟨p2, hp2, he, hlt⟩
      · exact Or.inl hin
      · exact Or.inr ⟨p2, List.mem_cons_of_mem _ hp2, he, hlt⟩
    · rw [retryStep, if_neg hb] at h
      rcases ih _ pr h with hin | ⟨p2, hp2, he, hlt⟩
      · rcases List.mem_append.mp hin with hin2 | hin2
        · exact Or.inl hin2
        · refine Or.inr ⟨p, List.mem_cons_self _ _, ?_, Nat.lt_of_not_le hb⟩
          rw [List.mem_singleton.mp hin2]
      · exact Or.inr ⟨p2, List.mem_cons_of_mem _ hp2, he, hlt⟩

theorem retryFold_skipped_mono (photos : List RetryPhoto) :
    ∀ (acc : RetryResult),
      ∃ l, (photos.foldl retryStep acc).skipped = acc.skipped ++ l := by
  induction photos with
  | nil => intro acc; exact ⟨[], (List.append_nil _).symm⟩
  | cons p rest ih =>
    intro acc
    rw [List.foldl_cons]
    by_cases hb : MAX_RETRIES ≤ p.retry_count
    · rw [retryStep, if_pos hb]
      obtain ⟨l, hl⟩ := ih { acc with skipped := acc.skipped ++ [p.id] }
      exact ⟨[p.id] ++ l, by rw [hl, List.append_assoc]⟩
    · rw [retryStep, if_neg hb]
      exact ih _

theorem retryFold_skipped_mem (photos : List RetryPhoto) :
    ∀ (acc : RetryResult) (p : RetryPhoto), p ∈ photos →
      MAX_RETRIES ≤ p.retry_count →
      p.id ∈ (photos.foldl retryStep acc).skipped := by
  induction photos with
  | nil => intro acc p h; cases h
  | cons q rest ih =>
    intro acc p hmem hge
    rcases List.mem_cons.mp hmem with he | hmem2
    · subst he
      rw [List.foldl_cons, retryStep, if_pos hge]
      obtain ⟨l, hl⟩ :=
        retryFold_skipped_mono rest { acc with skipped := acc.skipped ++ [p.id] }
      rw [hl]
      exact List.mem_append_left _ (List.mem_append_right _ (List.mem_singleton_self _))
    · rw [List.foldl_cons]
      exact ih _ p hmem2 hge

/-- Claim C6: a photo with status `error` whose `retry_count` has reached
`MAX_RETRIES` is never scheduled again by the automatic retry sweep — it
lands in the `skipped` list, not among the scheduled retries — so it stays
in `error` (the sweep performs no status write for it). -/
theorem C6_retry_exhaustion (photos : List RetryPhoto)
    (hnd : (photos.map RetryPhoto.id).Nodup) (p : RetryPhoto)
    (hmem : p ∈ photos) (hst : p.status = PhotoStatus.error)
    (hge : MAX_RETRIES ≤ p.retry_count) :
    p.id ∉ (auto_retry_failed_photos photos).retried.map Prod.fst ∧
    p.id ∈ (auto_retry_failed_photos photos).skipped := by
  constructor
  · intro hin
    obtain ⟨pr, hpr, hpr1⟩ := List.mem_map.mp hin
    rcases retryFold_retried_mem
        (photos.filter fun q => q.status == PhotoStatus.error)
        ⟨[], []⟩ pr hpr with h0 | ⟨p2, hp2, hid, hlt⟩
    · simp at h0
    · have hp2mem : p2 ∈ photos := (List.mem_filter.mp hp2).1
      have heq : p2 = p :=
        List.inj_on_of_nodup_map hnd hp2mem hmem (by rw [hid, hpr1])
      rw [heq] at hlt
      omega
  · exact retryFold_skipped_mem _ ⟨[], []⟩ p
      (List.mem_filter.mpr ⟨hmem, by simp [hst]⟩) hge

/-- Claim C6, witness: the sweep on one exhausted and one retryable failed
photo never schedules the exhausted one. -/
theorem C6_witness :
    "x" ∉ (auto_retry_failed_photos
        [⟨"x", PhotoStatus.error, 3⟩, ⟨"y", PhotoStatus.error, 1⟩]).retried.map
          Prod.fst ∧
    "x" ∈ (auto_retry_failed_photos
        [⟨"x", PhotoStatus.error, 3⟩, ⟨"y", PhotoStatus.error, 1⟩]).skipped :=
  C6_retry_exhaustion
    [⟨"x", PhotoStatus.error, 3⟩, ⟨"y", PhotoStatus.error, 1⟩]
    (by decide) ⟨"x", PhotoStatus.error, 3⟩ (by decide) rfl (by decide)

end Grapic
